import Mathlib

set_option maxRecDepth 100000

/-!
A shallow embedding of the Schedule I calculator core (src/calculator.py and
src/game_data.py): the static game-data tables, the effect-resolution
algorithm, the valuation arithmetic and the top-recipe search, together with
theorems settling the specification claims about them.

Python floats carrying decimal game data are modelled as exact rationals (ℚ);
Python's `round` builtin (round-half-to-even) is `pyRound`, Python's `int`
truncation is `pyTrunc`, and Python dictionaries are association lists looked
up with `tblLookup`.
-/

/-- The `BASE_MARKET_VALUES` dictionary of src/game_data.py. -/
def BASE_MARKET_VALUES : List (String × ℤ) :=
  [("Marijuana", 38), ("Methamphetamine", 70), ("Cocaine", 150)]

/-- One entry of the `MARIJUANA_STRAINS` dictionary. -/
structure StrainInfo where
  effect : String
  seed_cost : ℤ
  bud_value : ℤ
  yield_lo : ℤ
  yield_hi : ℤ
deriving DecidableEq

/-- The `MARIJUANA_STRAINS` dictionary of src/game_data.py. -/
def MARIJUANA_STRAINS : List (String × StrainInfo) :=
  [("OG Kush", ⟨"Calming", 30, 38, 11, 13⟩),
   ("Sour Diesel", ⟨"Refreshing", 35, 40, 11, 13⟩),
   ("Green Crack", ⟨"Energizing", 40, 43, 11, 13⟩),
   ("Granddaddy Purple", ⟨"Sedating", 45, 44, 11, 13⟩)]

/-- One entry of the `MIXERS` dictionary. -/
structure MixerInfo where
  effect : String
  cost : ℤ
  unlock : String
deriving DecidableEq

/-- The `MIXERS` dictionary of src/game_data.py (in source insertion order). -/
def MIXERS : List (String × MixerInfo) :=
  [("Cuke", ⟨"Energizing", 2, "Immediately"⟩),
   ("Banana", ⟨"Gingeritis", 2, "Immediately"⟩),
   ("Paracetamol", ⟨"Sneaky", 3, "Immediately"⟩),
   ("Donut", ⟨"Calorie-Dense", 3, "Immediately"⟩),
   ("Viagra", ⟨"Tropic Thunder", 4, "Hoodlum II"⟩),
   ("Flu medicine", ⟨"Sedating", 5, "Hoodlum IV"⟩),
   ("Mouth wash", ⟨"Balding", 4, "Hoodlum III"⟩),
   ("Gasoline", ⟨"Toxic", 5, "Hoodlum V"⟩),
   ("Motor oil", ⟨"Slippery", 6, "Peddler II"⟩),
   ("Mega bean", ⟨"Foggy", 7, "Peddler II"⟩),
   ("Chili", ⟨"Spicy", 7, "Peddler IV"⟩),
   ("Battery", ⟨"Bright-Eyed", 8, "Peddler V"⟩),
   ("Energy drink", ⟨"Athletic", 6, "Peddler I"⟩),
   ("Iodine", ⟨"Jennerising", 8, "Hustler I"⟩),
   ("Addy", ⟨"Thought-Provoking", 9, "Hustler II"⟩),
   ("Horse semen", ⟨"Long Faced", 9, "Hustler III"⟩)]

/-- One entry of the `EFFECTS` dictionary. -/
structure EffectInfo where
  multiplier : ℚ
  addictiveness : ℚ
  tier : ℤ
deriving DecidableEq

/-- The `EFFECTS` dictionary of src/game_data.py. -/
def EFFECTS : List (String × EffectInfo) :=
  [("Calming", ⟨0.10, 0.00, 1⟩),
   ("Paranoia", ⟨0.12, 0.12, 1⟩),
   ("Euphoric", ⟨0.14, 0.29, 1⟩),
   ("Munchies", ⟨0.16, 0.19, 1⟩),
   ("Laxative", ⟨0.18, 0.15, 1⟩),
   ("Focused", ⟨0.20, 0.31, 1⟩),
   ("Energizing", ⟨0.22, 0.34, 2⟩),
   ("Foggy", ⟨0.24, 0.27, 2⟩),
   ("Sedating", ⟨0.26, 0.30, 2⟩),
   ("Calorie-Dense", ⟨0.28, 0.27, 2⟩),
   ("Balding", ⟨0.30, 0.31, 2⟩),
   ("Thought-Provoking", ⟨0.32, 0.37, 2⟩),
   ("Slippery", ⟨0.34, 0.31, 3⟩),
   ("Toxic", ⟨0.00, 0.38, 3⟩),
   ("Spicy", ⟨0.36, 0.33, 3⟩),
   ("Gingeritis", ⟨0.38, 0.44, 3⟩),
   ("Sneaky", ⟨0.40, 0.48, 3⟩),
   ("Disorienting", ⟨0.42, 0.46, 3⟩),
   ("Athletic", ⟨0.44, 0.49, 3⟩),
   ("Tropic Thunder", ⟨0.46, 1.00, 4⟩),
   ("Glowing", ⟨0.48, 0.78, 4⟩),
   ("Electrifying", ⟨0.50, 0.80, 4⟩),
   ("Long Faced", ⟨0.52, 1.00, 4⟩),
   ("Anti-gravity", ⟨0.54, 0.86, 4⟩),
   ("Cyclopean", ⟨0.56, 0.88, 4⟩),
   ("Zombifying", ⟨0.58, 0.99, 4⟩),
   ("Shrinking", ⟨0.60, 0.91, 5⟩),
   ("Bright-Eyed", ⟨0.62, 0.93, 5⟩),
   ("Explosive", ⟨0.42, 0.55, 3⟩),
   ("Jennerising", ⟨0.46, 0.74, 4⟩),
   ("Schizophrenic", ⟨0.48, 0.80, 4⟩),
   ("Seizure-Inducing", ⟨0.52, 0.90, 4⟩),
   ("Refreshing", ⟨0.10, 0.10, 1⟩),
   ("Smelly", ⟨0.30, 0.35, 2⟩)]

/-- The `EFFECT_REPLACEMENTS` dictionary of src/game_data.py:
`(existing effect, mixer) → replacement effect`, in source order.
Note the mixer spellings "Flu Medicine", "Mega Bean" and "Horse Semen",
which differ from the `MIXERS` keys "Flu medicine", "Mega bean" and
"Horse semen". -/
def EFFECT_REPLACEMENTS : List ((String × String) × String) :=
  [(("Smelly", "Banana"), "Anti-gravity"),
   (("Munchies", "Paracetamol"), "Anti-gravity"),
   (("Calming", "Mouth wash"), "Anti-gravity"),
   (("Calming", "Banana"), "Sneaky"),
   (("Paranoia", "Banana"), "Zombifying"),
   (("Paranoia", "Cuke"), "Shrinking"),
   (("Paranoia", "Paracetamol"), "Sneaky"),
   (("Paranoia", "Flu Medicine"), "Shrinking"),
   (("Paranoia", "Mega Bean"), "Jennerising"),
   (("Paranoia", "Iodine"), "Foggy"),
   (("Refreshing", "Banana"), "Long Faced"),
   (("Refreshing", "Flu Medicine"), "Long Faced"),
   (("Refreshing", "Addy"), "Glowing"),
   (("Refreshing", "Horse Semen"), "Gingeritis"),
   (("Energizing", "Paracetamol"), "Paranoia"),
   (("Energizing", "Banana"), "Thought-Provoking"),
   (("Calming", "Paracetamol"), "Slippery")]

/-- The `ADDICTIVENESS` dictionary of src/game_data.py. -/
def ADDICTIVENESS : List (String × ℚ) :=
  [("OG Kush", 0.0),
   ("Sour Diesel", 0.10),
   ("Green Crack", 0.34),
   ("Granddaddy Purple", 0.0),
   ("Methamphetamine", 0.60),
   ("Cocaine", 0.40)]

/-- One entry of the `PRODUCTION_INFO` dictionary. -/
structure ProductionInfo where
  ingredients_cost : ℤ
  yield_amount : ℤ
  unit_value : ℤ
deriving DecidableEq

/-- The `PRODUCTION_INFO` dictionary of src/game_data.py. -/
def PRODUCTION_INFO : List (String × ProductionInfo) :=
  [("Methamphetamine", ⟨140, 10, 70⟩),
   ("Cocaine", ⟨245, 10, 150⟩)]

/-- Python dictionary lookup on an association list keyed by strings:
returns the value at the first matching key, `none` when absent. -/
def tblLookup {β : Type} : List (String × β) → String → Option β
  | [], _ => none
  | (k, v) :: rest, key => if k = key then some v else tblLookup rest key

/-- Python's `int()` applied to an exact value: truncation toward zero. -/
def pyTrunc (q : ℚ) : ℤ := if 0 ≤ q then ⌊q⌋ else -⌊-q⌋

/-- Python's builtin `round()` applied to an exact value: round to the
nearest integer, ties to the even neighbour. -/
def pyRound (q : ℚ) : ℤ :=
  if Int.fract q < 1 / 2 then ⌊q⌋
  else if 1 / 2 < Int.fract q then ⌊q⌋ + 1
  else if ⌊q⌋ % 2 = 0 then ⌊q⌋ else ⌊q⌋ + 1

/-- The tuple-keyed lookup `EFFECT_REPLACEMENTS[(effect, mixer)]` used by
`get_effects_from_mixers` (calculator.py line 37): scans the rule list for
the first rule matching both the existing effect and the mixer. -/
def replLookup : List ((String × String) × String) → String → String → Option String
  | [], _, _ => none
  | ((e0, m0), tgt) :: rest, e, m =>
    if e0 = e ∧ m0 = m then some tgt else replLookup rest e m

/-- The inner replacement scan of `get_effects_from_mixers`
(calculator.py lines 36-42): find the first effect in the working list having
a replacement rule for this mixer, replace it in place, and stop; `none`
when no rule fires for any current effect. -/
def replaceFirst : List String → String → Option (List String)
  | [], _ => none
  | e :: rest, mixer =>
    match replLookup EFFECT_REPLACEMENTS e mixer with
    | some tgt => some (tgt :: rest)
    | none => (replaceFirst rest mixer).map (fun es => e :: es)

/-- One iteration of the mixer loop of `get_effects_from_mixers`
(calculator.py lines 30-48): unknown mixers are skipped; otherwise at most
one replacement happens, and only when none does is the mixer's default
effect appended (when absent and the list holds fewer than 8 effects). -/
def applyMixer (effects : List String) (mixer : String) : List String :=
  match tblLookup MIXERS mixer with
  | none => effects
  | some info =>
    match replaceFirst effects mixer with
    | some replaced => replaced
    | none =>
      if info.effect ∉ effects ∧ effects.length < 8 then effects ++ [info.effect]
      else effects

/-- `get_effects_from_mixers` (calculator.py lines 9-51): seed the working
list with a strain's inherent effect, run the mixer loop in order, and
return the list truncated to 8 entries. -/
def get_effects_from_mixers (base_product : String) (mixer_list : List String) : List String :=
  let effects : List String :=
    match tblLookup MARIJUANA_STRAINS base_product with
    | some s => [s.effect]
    | none => []
  (mixer_list.foldl applyMixer effects).take 8

/-- The base-value lookup of `calculate_market_value`
(calculator.py lines 68-74): the flat base-value table first, then the
strain table's bud value, `none` (a raised `ValueError`) otherwise. -/
def base_value_of (base_product : String) : Option ℤ :=
  match tblLookup BASE_MARKET_VALUES base_product with
  | some v => some v
  | none =>
    match tblLookup MARIJUANA_STRAINS base_product with
    | some s => some s.bud_value
    | none => none

/-- One step of the multiplier sum of `calculate_market_value`
(calculator.py line 77): effect names absent from `EFFECTS` contribute
nothing. -/
def multiplierStep (acc : ℚ) (e : String) : ℚ :=
  match tblLookup EFFECTS e with
  | some info => acc + info.multiplier
  | none => acc

/-- The multiplier sum of `calculate_market_value` (calculator.py line 77). -/
def multiplier_total (effects_list : List String) : ℚ :=
  effects_list.foldl multiplierStep 0

/-- `calculate_market_value` (calculator.py lines 54-86). `none` models the
raised `ValueError` for an unknown product; otherwise
`base_value * (1 + multiplier_total)` is rounded: an exact fractional part
of one half is truncated by `int()`, anything else goes through `round()`. -/
def calculate_market_value (base_product : String) (effects_list : List String) : Option ℤ :=
  match base_value_of base_product with
  | none => none
  | some base_value =>
    let total_value : ℚ := (base_value : ℚ) * (1 + multiplier_total effects_list)
    some (if Int.fract total_value = 1 / 2 then pyTrunc total_value else pyRound total_value)

/-- One step of `calculate_mixer_cost` (calculator.py line 99): mixers
absent from the catalog cost nothing. -/
def mixerCostStep (acc : ℤ) (m : String) : ℤ :=
  match tblLookup MIXERS m with
  | some info => acc + info.cost
  | none => acc

/-- `calculate_mixer_cost` (calculator.py lines 89-99). -/
def calculate_mixer_cost (mixer_list : List String) : ℤ :=
  mixer_list.foldl mixerCostStep 0

/-- `calculate_product_cost` (calculator.py lines 102-137): strains cost
`seed_cost / average yield` per bud, batch products
`ingredients_cost / yield`, anything else falls back to the flat base value
(or 0); the mixer cost is added and the total passed to Python's `round`. -/
def calculate_product_cost (base_product : String) (mixer_list : List String) : ℤ :=
  let base_cost : ℚ :=
    match tblLookup MARIJUANA_STRAINS base_product with
    | some s =>
      let avg_yield : ℚ := ((s.yield_lo : ℚ) + (s.yield_hi : ℚ)) / 2
      (s.seed_cost : ℚ) / avg_yield
    | none =>
      match tblLookup PRODUCTION_INFO base_product with
      | some p => (p.ingredients_cost : ℚ) / (p.yield_amount : ℚ)
      | none =>
        match tblLookup BASE_MARKET_VALUES base_product with
        | some v => (v : ℚ)
        | none => 0
  pyRound (base_cost + (calculate_mixer_cost mixer_list : ℚ))

/-- The tuple returned by `calculate_profit` (calculator.py line 177). -/
structure ProfitResult where
  market_value : ℤ
  total_cost : ℤ
  profit : ℤ
  profit_margin : ℚ
  effects : List String
  addictiveness : ℚ
deriving DecidableEq

/-- `calculate_profit` (calculator.py lines 140-177): resolve effects,
price and cost the mix, compute the margin (0 when the cost is not
positive), and cap addictiveness at 1. `none` models the `ValueError`
propagated from `calculate_market_value` for an unknown product. -/
def calculate_profit (base_product : String) (mixer_list : List String) : Option ProfitResult :=
  let effects_list := get_effects_from_mixers base_product mixer_list
  match calculate_market_value base_product effects_list with
  | none => none
  | some market_value =>
    let total_cost := calculate_product_cost base_product mixer_list
    let profit := market_value - total_cost
    let profit_margin : ℚ :=
      if 0 < total_cost then ((profit : ℚ) / (total_cost : ℚ)) * 100 else 0
    let base_addictiveness : ℚ := (tblLookup ADDICTIVENESS base_product).getD 0
    let effect_addictiveness : ℚ :=
      effects_list.foldl
        (fun acc e =>
          match tblLookup EFFECTS e with
          | some info => acc + info.addictiveness
          | none => acc) 0
    let total_addictiveness := min (base_addictiveness + effect_addictiveness) 1
    some ⟨market_value, total_cost, profit, profit_margin, effects_list, total_addictiveness⟩

/-- Lexicographic comparison of strings by code point, the order Python's
`sorted` uses on the ASCII effect names. -/
def charListLe : List Char → List Char → Bool
  | [], _ => true
  | _ :: _, [] => false
  | a :: as, b :: bs =>
    if a < b then true
    else if b < a then false
    else charListLe as bs

/-- String comparison feeding the effect-signature sort. -/
def strLeB (a b : String) : Bool := charListLe a.data b.data

/-- Python's stable ascending `sorted` on strings, as a stable insertion
sort (any two stable sorts under the same total preorder agree). -/
def sortStrings (l : List String) : List String :=
  List.insertionSort (fun a b => strLeB a b = true) l

/-- Python's stable `sorted(key=..., reverse=True)`: a stable sort by
descending rational key. -/
def sortDescBy {α : Type} (f : α → ℚ) (l : List α) : List α :=
  List.insertionSort (fun a b => f b ≤ f a) l

/-- Python's `sorted(keys, reverse=True)` on integers. -/
def sortDescInt (l : List ℤ) : List ℤ :=
  List.insertionSort (fun a b : ℤ => b ≤ a) l

/-- One candidate dictionary built by `find_top_profit_recipes`
(calculator.py lines 261-270): the mixer list, the profit metrics, and the
dedup signature `tuple(sorted(effects))`. -/
structure Combo where
  mixers : List String
  market_value : ℤ
  total_cost : ℤ
  profit : ℤ
  profit_margin : ℚ
  effects : List String
  effect_signature : List String
  addictiveness : ℚ
deriving DecidableEq

/-- A returned recipe dictionary after `find_top_profit_recipes` deletes the
`effect_signature` key (calculator.py lines 353-356). -/
structure Recipe where
  mixers : List String
  market_value : ℤ
  total_cost : ℤ
  profit : ℤ
  profit_margin : ℚ
  effects : List String
  addictiveness : ℚ
deriving DecidableEq

/-- Placeholder profit tuple; `find_top_profit_recipes` only evaluates
known products, for which `calculate_profit` always succeeds. -/
def emptyProfit : ProfitResult := ⟨0, 0, 0, 0, [], 0⟩

/-- Build the candidate dictionary for one mixer list
(calculator.py lines 251-270 and 294-312). -/
def evalCombo (base_product : String) (mixers : List String) : Combo :=
  let p := (calculate_profit base_product mixers).getD emptyProfit
  ⟨mixers, p.market_value, p.total_cost, p.profit, p.profit_margin, p.effects,
   sortStrings p.effects, p.addictiveness⟩

/-- The seed pool of `find_top_profit_recipes` (calculator.py lines 237-241):
the empty mixer list followed by every single-mixer list in catalog order. -/
def initial_combinations : List (List String) :=
  [] :: MIXERS.map (fun kv => [kv.1])

/-- The first evaluation loop of `find_top_profit_recipes`
(calculator.py lines 250-270): evaluate a candidate and keep it only when
its effect signature is new; the state is (seen signatures, kept combos). -/
def dedupAppend (base_product : String)
    (st : List (List String) × List Combo) (mixers : List String) :
    List (List String) × List Combo :=
  let c := evalCombo base_product mixers
  if c.effect_signature ∈ st.1 then st
  else (st.1 ++ [c.effect_signature], st.2 ++ [c])

/-- The inner extension step of the depth loop
(calculator.py lines 291-312): skip mixers already in the combination,
evaluate the extended mixer list, and keep it when its signature is new;
the state is (seen signatures, new combos). -/
def extendCombo (base_product : String)
    (st : List (List String) × List Combo) (combo : Combo) (mixer : String) :
    List (List String) × List Combo :=
  if mixer ∈ combo.mixers then st
  else
    let c := evalCombo base_product (combo.mixers ++ [mixer])
    if c.effect_signature ∈ st.1 then st
    else (st.1 ++ [c.effect_signature], st.2 ++ [c])

/-- One iteration of the depth loop of `find_top_profit_recipes`
(calculator.py lines 279-321): extend every beam candidate not yet at the
mixer cap by every catalog mixer, merge the new combos into the pool,
re-sort by descending margin and re-take the beam of `top_n * 5`.
The state is (pool, beam, seen signatures). -/
def searchStep (base_product : String) (top_n : ℕ) (max_mixers : Option ℕ)
    (st : List Combo × List Combo × List (List String)) :
    List Combo × List Combo × List (List String) :=
  let best := st.1
  let pruned := st.2.1
  let seen := st.2.2
  let extended :=
    pruned.foldl
      (fun acc combo =>
        match max_mixers with
        | some cap =>
          if cap ≤ combo.mixers.length then acc
          else MIXERS.foldl (fun a kv => extendCombo base_product a combo kv.1) acc
        | none => MIXERS.foldl (fun a kv => extendCombo base_product a combo kv.1) acc)
      (seen, [])
  let best' := sortDescBy Combo.profit_margin (best ++ extended.2)
  (best', best'.take (top_n * 5), extended.1)

/-- First-occurrence order of the distinct market values in the pool: the
key order of the `value_groups` dictionary (calculator.py lines 325-331). -/
def firstOccur (l : List ℤ) : List ℤ :=
  l.foldl (fun acc k => if k ∈ acc then acc else acc ++ [k]) []

/-- For each market value, the best-margin combo of its group
(calculator.py lines 335-340): filter the pool to the group, sort it by
descending margin, and take its first element. -/
def groupHeads (best : List Combo) (keys : List ℤ) : List Combo :=
  keys.filterMap
    (fun k => (sortDescBy Combo.profit_margin
      (best.filter (fun c => c.market_value = k))).head?)

/-- The diversity loop (calculator.py lines 334-342): append one group head
per market value, from the highest value down, stopping as soon as `top_n`
recipes are collected (checked after each append). -/
def collectDiverse (top_n : ℕ) : List Combo → List Combo → List Combo
  | acc, [] => acc
  | acc, g :: rest =>
    let acc' := acc ++ [g]
    if top_n ≤ acc'.length then acc' else collectDiverse top_n acc' rest

/-- The backfill loop (calculator.py lines 345-351): append pool combos not
already present until `top_n` is reached (checked after each append). -/
def backfillLoop (top_n : ℕ) : List Combo → List Combo → List Combo
  | acc, [] => acc
  | acc, c :: rest =>
    if c ∈ acc then backfillLoop top_n acc rest
    else
      let acc' := acc ++ [c]
      if top_n ≤ acc'.length then acc' else backfillLoop top_n acc' rest

/-- Dropping the `effect_signature` key (calculator.py lines 353-356). -/
def toRecipe (c : Combo) : Recipe :=
  ⟨c.mixers, c.market_value, c.total_cost, c.profit, c.profit_margin,
   c.effects, c.addictiveness⟩

/-- `find_top_profit_recipes` (calculator.py lines 214-359). The Python
defaults are `max_depth = 8`, `top_n = 5`, `max_mixers = None`. `none`
models the `ValueError` raised by the first `calculate_profit` call when
the base product is unknown; every later call then succeeds. -/
def find_top_profit_recipes (base_product : String) (max_depth : ℕ) (top_n : ℕ)
    (max_mixers : Option ℕ) : Option (List Recipe) :=
  match calculate_profit base_product [] with
  | none => none
  | some _ =>
    let depth : ℕ :=
      match max_mixers with
      | some mm => min max_depth mm
      | none => max_depth
    let start := initial_combinations.foldl (dedupAppend base_product) ([], [])
    let best1 := sortDescBy Combo.profit_margin start.2
    let looped := (searchStep base_product top_n max_mixers)^[depth - 1]
      (best1, best1.take (top_n * 5), start.1)
    let bestF := looped.1
    let keys := sortDescInt (firstOccur (bestF.map Combo.market_value))
    let diverse := collectDiverse top_n [] (groupHeads bestF keys)
    let diverse' :=
      if diverse.length < top_n then backfillLoop top_n diverse bestF else diverse
    some ((sortDescBy Recipe.profit_margin (diverse'.map toRecipe)).take top_n)

/-- Membership in the mixer catalog, as the Python test `mixer in MIXERS`. -/
def knownMixer (m : String) : Bool := (tblLookup MIXERS m).isSome

/-- The specification's market-value rounding rule, stated independently of
the code: round to the nearest integer, except that an exact fractional
part of one half rounds to the floor. -/
def specRound (q : ℚ) : ℤ :=
  if Int.fract q = 1 / 2 then ⌊q⌋ else round q

/-! ### General lemmas about the embedding -/

/-- A successful table lookup returns an entry of the table. -/
theorem tblLookup_mem {β : Type} (l : List (String × β)) (k : String) (v : β)
    (h : tblLookup l k = some v) : (k, v) ∈ l := by
  induction l with
  | nil => simp [tblLookup] at h
  | cons hd tl ih =>
    obtain ⟨k0, v0⟩ := hd
    by_cases hk : k0 = k
    · subst hk
      simp [tblLookup] at h
      subst h
      exact List.mem_cons_self _ _
    · simp only [tblLookup, if_neg hk] at h
      exact List.mem_cons_of_mem _ (ih h)

/-- Every flat base value in the catalog is positive. -/
theorem base_values_pos : ∀ pr ∈ BASE_MARKET_VALUES, 0 < pr.2 := by decide

/-- Every strain bud value in the catalog is positive. -/
theorem strains_bud_pos : ∀ pr ∈ MARIJUANA_STRAINS, 0 < pr.2.bud_value := by decide

/-- Every effect multiplier in the catalog is nonnegative. -/
theorem effects_multiplier_nonneg : ∀ pr ∈ EFFECTS, 0 ≤ pr.2.multiplier := by
  with_unfolding_all decide

/-- The base value resolved for any product is positive. -/
theorem base_value_pos {p : String} {bv : ℤ} (h : base_value_of p = some bv) : 0 < bv := by
  unfold base_value_of at h
  cases h1 : tblLookup BASE_MARKET_VALUES p with
  | some v =>
    rw [h1] at h
    injection h with h
    subst h
    exact base_values_pos _ (tblLookup_mem _ _ _ h1)
  | none =>
    rw [h1] at h
    cases h2 : tblLookup MARIJUANA_STRAINS p with
    | some s =>
      rw [h2] at h
      injection h with h
      subst h
      exact strains_bud_pos _ (tblLookup_mem _ _ _ h2)
    | none => rw [h2] at h; exact absurd h (by simp)

/-- The multiplier foldl never decreases below its accumulator. -/
theorem multiplier_foldl_ge (es : List String) : ∀ acc : ℚ,
    acc ≤ es.foldl multiplierStep acc := by
  induction es with
  | nil => intro acc; simp
  | cons e tl ih =>
    intro acc
    have hstep : acc ≤ multiplierStep acc e := by
      unfold multiplierStep
      cases h : tblLookup EFFECTS e with
      | none => simp
      | some info =>
        have := effects_multiplier_nonneg _ (tblLookup_mem _ _ _ h)
        simp only []
        linarith
    calc acc ≤ multiplierStep acc e := hstep
      _ ≤ tl.foldl multiplierStep (multiplierStep acc e) := ih _

/-- The multiplier sum over any effect list is nonnegative. -/
theorem multiplier_total_nonneg (es : List String) : 0 ≤ multiplier_total es :=
  multiplier_foldl_ge es 0

/-- Python truncation agrees with the floor on nonnegative values. -/
theorem pyTrunc_eq_floor {q : ℚ} (h : 0 ≤ q) : pyTrunc q = ⌊q⌋ := by
  unfold pyTrunc
  rw [if_pos h]

/-- Away from exact halves, Python's `round` is rounding to the nearest
integer (Mathlib's `round`). -/
theorem pyRound_eq_round {q : ℚ} (h : Int.fract q ≠ 1 / 2) : pyRound q = round q := by
  have hf : (⌊q⌋ : ℚ) + Int.fract q = q := Int.floor_add_fract q
  have h0 : (0 : ℚ) ≤ Int.fract q := Int.fract_nonneg q
  have h1 : Int.fract q < 1 := Int.fract_lt_one q
  unfold pyRound
  rcases lt_or_gt_of_ne h with hlt | hgt
  · rw [if_pos hlt, round_eq]
    symm
    rw [Int.floor_eq_iff]
    exact ⟨by linarith, by linarith⟩
  · rw [if_neg (not_lt.mpr hgt.le), if_pos hgt, round_eq]
    symm
    rw [Int.floor_eq_iff]
    refine ⟨?_, ?_⟩ <;> push_cast <;> linarith

/-- When no current effect has a rule for the mixer, the replacement scan
fails. -/
theorem replaceFirst_none_of_all (es : List String) (mx : String)
    (h : ∀ e ∈ es, replLookup EFFECT_REPLACEMENTS e mx = none) :
    replaceFirst es mx = none := by
  induction es with
  | nil => rfl
  | cons e tl ih =>
    have h0 : replLookup EFFECT_REPLACEMENTS e mx = none := h e (List.mem_cons_self _ _)
    simp [replaceFirst, h0, ih (fun x hx => h x (List.mem_cons_of_mem _ hx))]

/-- The replacement scan rewrites exactly the first effect having a rule
for the mixer and leaves everything else in place. -/
theorem replaceFirst_first (pre : List String) (mx e : String) (post : List String)
    (tgt : String) (hpre : ∀ e' ∈ pre, replLookup EFFECT_REPLACEMENTS e' mx = none)
    (he : replLookup EFFECT_REPLACEMENTS e mx = some tgt) :
    replaceFirst (pre ++ e :: post) mx = some (pre ++ tgt :: post) := by
  induction pre with
  | nil => simp [replaceFirst, he]
  | cons p0 tl ih =>
    have h0 : replLookup EFFECT_REPLACEMENTS p0 mx = none := hpre p0 (List.mem_cons_self _ _)
    simp [replaceFirst, h0, ih (fun x hx => hpre x (List.mem_cons_of_mem _ hx))]

/-- A successful replacement keeps the length of the working list. -/
theorem replaceFirst_length (es : List String) : ∀ (mx : String) (es' : List String),
    replaceFirst es mx = some es' → es'.length = es.length := by
  induction es with
  | nil => intro mx es' h; simp [replaceFirst] at h
  | cons e tl ih =>
    intro mx es' h
    cases hl : replLookup EFFECT_REPLACEMENTS e mx with
    | some tgt =>
      simp only [replaceFirst, hl] at h
      injection h with h
      subst h
      simp
    | none =>
      simp only [replaceFirst, hl, Option.map_eq_some'] at h
      obtain ⟨y, hy, rfl⟩ := h
      simp [ih mx y hy]

/-- Unknown mixers leave the working effect list unchanged. -/
theorem applyMixer_unknown {mx : String} (h : tblLookup MIXERS mx = none)
    (es : List String) : applyMixer es mx = es := by
  simp [applyMixer, h]

/-- Dropping unknown mixer names does not change the mixer folding of the
effect resolver. -/
theorem foldl_applyMixer_filter (m : List String) : ∀ init : List String,
    (m.filter knownMixer).foldl applyMixer init = m.foldl applyMixer init := by
  induction m with
  | nil => intro init; rfl
  | cons mx tl ih =>
    intro init
    by_cases h : knownMixer mx
    · simp [List.filter_cons, h, ih]
    · have hnone : tblLookup MIXERS mx = none := by
        unfold knownMixer at h
        cases htbl : tblLookup MIXERS mx with
        | some v => rw [htbl] at h; simp at h
        | none => rfl
      simp [List.filter_cons, h, applyMixer_unknown hnone, ih]

/-- Dropping unknown mixer names does not change the mixer-cost folding. -/
theorem foldl_mixerCost_filter (m : List String) : ∀ acc : ℤ,
    (m.filter knownMixer).foldl mixerCostStep acc = m.foldl mixerCostStep acc := by
  induction m with
  | nil => intro acc; rfl
  | cons mx tl ih =>
    intro acc
    by_cases h : knownMixer mx
    · simp [List.filter_cons, h, ih]
    · have hnone : tblLookup MIXERS mx = none := by
        unfold knownMixer at h
        cases htbl : tblLookup MIXERS mx with
        | some v => rw [htbl] at h; simp at h
        | none => rfl
      have hstep : mixerCostStep acc mx = acc := by simp [mixerCostStep, hnone]
      simp [List.filter_cons, h, hstep, ih]

/-- A stable descending sort by a rational key is pairwise descending. -/
theorem sortDescBy_pairwise {α : Type} (f : α → ℚ) (l : List α) :
    List.Pairwise (fun a b => f b ≤ f a) (sortDescBy f l) := by
  haveI : IsTotal α (fun a b => f b ≤ f a) := ⟨fun a b => le_total (f b) (f a)⟩
  haveI : IsTrans α (fun a b => f b ≤ f a) := ⟨fun _ _ _ hab hbc => le_trans hbc hab⟩
  exact List.sorted_insertionSort _ l

/-- Truncating a descending sort keeps it pairwise descending. -/
theorem sortDescBy_take_pairwise {α : Type} (f : α → ℚ) (l : List α) (n : ℕ) :
    List.Pairwise (fun a b => f b ≤ f a) ((sortDescBy f l).take n) :=
  List.Pairwise.sublist (List.take_sublist n _) (sortDescBy_pairwise f l)

/-! ### Claim theorems -/

/-- C1, counterexample: the claim predicts
`calculate_product_cost("OG Kush", []) = 3` under half-away-from-zero
rounding of 30 / 12 = 2.5, but the code's `round` (Python's builtin,
round-half-to-even) yields 2. -/
theorem product_cost_og_kush_counterexample :
    calculate_product_cost "OG Kush" [] = 2 ∧ (2 : ℤ) ≠ 3 := by
  refine ⟨by with_unfolding_all decide, by decide⟩

/-- C1, amended: for every strain, production cost is seed cost divided by
the fractional average of the yield range, plus the known mixers' costs,
the total rounded by Python's `round` — round-half-to-even, not
half-away-from-zero; so "OG Kush" alone costs 2 (2.5 ties to even 2),
with "Cuke" costs 4 (4.5 ties to 4) and with "Paracetamol" costs 6
(5.5 ties to 6). -/
theorem product_cost_strain_formula :
    (∀ (p : String) (s : StrainInfo) (m : List String),
       tblLookup MARIJUANA_STRAINS p = some s →
       calculate_product_cost p m =
         pyRound ((s.seed_cost : ℚ) / (((s.yield_lo : ℚ) + (s.yield_hi : ℚ)) / 2)
           + (calculate_mixer_cost m : ℚ))) ∧
    (∀ z : ℤ, pyRound ((z : ℚ) + 1 / 2) = if z % 2 = 0 then z else z + 1) ∧
    calculate_product_cost "OG Kush" [] = 2 ∧
    calculate_product_cost "OG Kush" ["Cuke"] = 4 ∧
    calculate_product_cost "OG Kush" ["Paracetamol"] = 6 := by
  refine ⟨?_, ?_, by with_unfolding_all decide, by with_unfolding_all decide,
    by with_unfolding_all decide⟩
  · intro p s m h
    simp only [calculate_product_cost, h]
  · intro z
    have hfr : Int.fract ((z : ℚ) + 1 / 2) = 1 / 2 := by
      rw [add_comm, Int.fract_add_int]
      exact Int.fract_eq_self.mpr ⟨by norm_num, by norm_num⟩
    have hfl : ⌊(z : ℚ) + 1 / 2⌋ = z := by
      rw [add_comm, Int.floor_add_int]
      norm_num
    unfold pyRound
    rw [hfr, hfl]
    norm_num

/-- C1, witness for the amended strain cost formula at "OG Kush" with one
"Cuke". -/
theorem product_cost_strain_formula_witness :
    calculate_product_cost "OG Kush" ["Cuke"] =
      pyRound ((30 : ℚ) / (((11 : ℚ) + (13 : ℚ)) / 2) + ((calculate_mixer_cost ["Cuke"]) : ℚ)) :=
  product_cost_strain_formula.1 "OG Kush" ⟨"Calming", 30, 38, 11, 13⟩ ["Cuke"] (by decide)

/-- C2, counterexample: a replacement can write a duplicate into the
working list. "Green Crack" starts at Energizing; "Addy" appends
Thought-Provoking; "Banana" then fires (Energizing, Banana) →
Thought-Provoking, duplicating it. -/
theorem resolve_effects_duplicate_counterexample :
    get_effects_from_mixers "Green Crack" ["Addy", "Banana"] =
      ["Thought-Provoking", "Thought-Provoking"] ∧
    ¬ (get_effects_from_mixers "Green Crack" ["Addy", "Banana"]).Nodup := by
  refine ⟨by decide, by decide⟩

/-- C2, amended: the append branch alone never introduces a duplicate — a
mixer application that fires no replacement keeps the working list
duplicate-free; only an in-place replacement whose target effect already
occurs elsewhere can create a repeat. -/
theorem applyMixer_nodup_of_no_replacement :
    ∀ (es : List String) (mx : String), es.Nodup →
      replaceFirst es mx = none → (applyMixer es mx).Nodup := by
  intro es mx hnd hrf
  unfold applyMixer
  cases h : tblLookup MIXERS mx with
  | none => exact hnd
  | some info =>
    rw [hrf]
    dsimp only
    by_cases hc : info.effect ∉ es ∧ es.length < 8
    · rw [if_pos hc]
      simp [List.nodup_append, hnd, hc.1]
    · rw [if_neg hc]
      exact hnd

/-- C2, witness: applying "Addy" to the duplicate-free list [Energizing]
(no replacement rule fires) keeps it duplicate-free. -/
theorem applyMixer_nodup_witness : (applyMixer ["Energizing"] "Addy").Nodup :=
  applyMixer_nodup_of_no_replacement ["Energizing"] "Addy" (by decide) (by decide)

/-- C3: `calculate_market_value` fails (the embedded `none`, the raised
`ValueError`) exactly when the product is in neither the flat base-value
table nor the strain table; for any product in either table it returns a
value. -/
theorem market_value_error_iff :
    ∀ (p : String) (es : List String),
      calculate_market_value p es = none ↔
        (tblLookup BASE_MARKET_VALUES p = none ∧ tblLookup MARIJUANA_STRAINS p = none) := by
  intro p es
  cases h1 : tblLookup BASE_MARKET_VALUES p <;>
    cases h2 : tblLookup MARIJUANA_STRAINS p <;>
      simp [calculate_market_value, base_value_of, h1, h2]

/-- C4: for every product with a base value, the market value is
`base_value * (1 + sum of known effect multipliers)` rounded to the nearest
integer, with an exact fractional part of one half rounding to the floor;
in particular "Green Crack" with Electrifying is 43 * 1.50 = 64.5 → 64. -/
theorem market_value_formula :
    (∀ (p : String) (es : List String) (bv : ℤ), base_value_of p = some bv →
       calculate_market_value p es =
         some (specRound ((bv : ℚ) * (1 + multiplier_total es)))) ∧
    calculate_market_value "Green Crack" ["Electrifying"] = some 64 := by
  refine ⟨?_, by with_unfolding_all decide⟩
  intro p es bv h
  simp only [calculate_market_value, h]
  congr 1
  unfold specRound
  by_cases hf : Int.fract ((bv : ℚ) * (1 + multiplier_total es)) = 1 / 2
  · rw [if_pos hf, if_pos hf]
    apply pyTrunc_eq_floor
    have h1 : (0 : ℚ) ≤ (bv : ℚ) := by exact_mod_cast (base_value_pos h).le
    have h2 : 0 ≤ multiplier_total es := multiplier_total_nonneg es
    exact mul_nonneg h1 (by linarith)
  · rw [if_neg hf, if_neg hf, pyRound_eq_round hf]

/-- C4, witness at "Green Crack" with Electrifying. -/
theorem market_value_formula_witness :
    calculate_market_value "Green Crack" ["Electrifying"] =
      some (specRound ((43 : ℚ) * (1 + multiplier_total ["Electrifying"]))) :=
  market_value_formula.1 "Green Crack" ["Electrifying"] 43 (by decide)

/-- C5: a catalog mixer replaces the first working effect that has a rule
for it, in place, touching nothing else; and when no rule fires for any
working effect, the mixer's default effect is appended exactly when it is
absent and the list holds fewer than 8 effects. -/
theorem applyMixer_replacement_semantics :
    ∀ (mx : String) (info : MixerInfo), tblLookup MIXERS mx = some info →
      (∀ (pre : List String) (e : String) (post : List String) (tgt : String),
         (∀ e' ∈ pre, replLookup EFFECT_REPLACEMENTS e' mx = none) →
         replLookup EFFECT_REPLACEMENTS e mx = some tgt →
         applyMixer (pre ++ e :: post) mx = pre ++ tgt :: post) ∧
      (∀ es : List String,
         (∀ e ∈ es, replLookup EFFECT_REPLACEMENTS e mx = none) →
         applyMixer es mx =
           if info.effect ∉ es ∧ es.length < 8 then es ++ [info.effect] else es) := by
  intro mx info h
  constructor
  · intro pre e post tgt hpre he
    simp only [applyMixer, h, replaceFirst_first pre mx e post tgt hpre he]
  · intro es hall
    simp only [applyMixer, h, replaceFirst_none_of_all es mx hall]

/-- C5, witness: "Banana" fires (Calming, Banana) → Sneaky on the
single-effect list [Calming]. -/
theorem applyMixer_replacement_witness :
    applyMixer ["Calming"] "Banana" = ["Sneaky"] := by
  have h := (applyMixer_replacement_semantics "Banana" ⟨"Gingeritis", 2, "Immediately"⟩
    (by decide)).1 [] "Calming" [] "Sneaky" (by simp) (by decide)
  simpa using h

/-- C6: mixer names outside the catalog are ignored everywhere — filtering
them out of a mixer list changes neither the resolved effects, nor the
mixer cost, nor the product cost, and each embedded function is total. -/
theorem unknown_mixers_ignored :
    ∀ (p : String) (m : List String),
      get_effects_from_mixers p (m.filter knownMixer) = get_effects_from_mixers p m ∧
      calculate_mixer_cost (m.filter knownMixer) = calculate_mixer_cost m ∧
      calculate_product_cost p (m.filter knownMixer) = calculate_product_cost p m := by
  intro p m
  have hcost : calculate_mixer_cost (m.filter knownMixer) = calculate_mixer_cost m :=
    foldl_mixerCost_filter m 0
  refine ⟨?_, hcost, ?_⟩
  · unfold get_effects_from_mixers
    dsimp only
    rw [foldl_applyMixer_filter]
  · unfold calculate_product_cost
    rw [hcost]

/-- C7: in the profit tuple, the margin is `profit / cost * 100` whenever
the total cost is strictly positive, and 0 when the total cost is 0 — the
zero-cost case is a defined result, not a division error. -/
theorem profit_margin_definition :
    ∀ (p : String) (m : List String) (r : ProfitResult),
      calculate_profit p m = some r →
        (0 < r.total_cost → r.profit_margin = ((r.profit : ℚ) / (r.total_cost : ℚ)) * 100) ∧
        (r.total_cost = 0 → r.profit_margin = 0) := by
  intro p m r h
  simp only [calculate_profit] at h
  cases hmv : calculate_market_value p (get_effects_from_mixers p m) with
  | none => rw [hmv] at h; exact absurd h (by simp)
  | some mv =>
    rw [hmv] at h
    dsimp only at h
    injection h with h
    subst h
    dsimp only
    constructor
    · intro h1
      rw [if_pos h1]
    · intro h2
      rw [if_neg (by rw [h2]; exact lt_irrefl 0)]

/-- C7, witness at "OG Kush" with no mixers: cost 2 > 0 and the margin is
40 / 2 * 100 = 2000. -/
theorem profit_margin_definition_witness :
    (2000 : ℚ) = ((40 : ℚ) / (2 : ℚ)) * 100 := by
  have h := profit_margin_definition "OG Kush" [] ⟨42, 2, 40, 2000, ["Calming"], 0⟩
    (by with_unfolding_all decide)
  exact h.1 (by decide)

/-- C8: the returned effect list never exceeds 8 entries, and each mixer
application preserves the 8-entry bound of the working list, so the bound
holds at every point of the resolution. -/
theorem effects_cap :
    (∀ (p : String) (m : List String), (get_effects_from_mixers p m).length ≤ 8) ∧
    (∀ (es : List String) (mx : String), es.length ≤ 8 → (applyMixer es mx).length ≤ 8) := by
  constructor
  · intro p m
    unfold get_effects_from_mixers
    simp [List.length_take]
  · intro es mx h
    unfold applyMixer
    cases h1 : tblLookup MIXERS mx with
    | none => exact h
    | some info =>
      cases h2 : replaceFirst es mx with
      | some es' =>
        dsimp only
        rw [replaceFirst_length es mx es' h2]
        exact h
      | none =>
        dsimp only
        by_cases hc : info.effect ∉ es ∧ es.length < 8
        · rw [if_pos hc]
          have := hc.2
          simp only [List.length_append, List.length_singleton]
          omega
        · rw [if_neg hc]
          exact h

/-- C8, witness: one mixer application on a 1-element working list stays
within the bound. -/
theorem effects_cap_witness : (applyMixer ["Calming"] "Cuke").length ≤ 8 :=
  effects_cap.2 ["Calming"] "Cuke" (by decide)

/-- C9: the recipe search returns at most `top_n` recipes, listed in
descending profit-margin order, for every base product and parameters
(vacuously for the unknown-product failure case). -/
theorem top_recipes_count_and_order :
    ∀ (p : String) (max_depth top_n : ℕ) (mm : Option ℕ),
      ((find_top_profit_recipes p max_depth top_n mm).getD []).length ≤ top_n ∧
      List.Pairwise (fun a b : Recipe => b.profit_margin ≤ a.profit_margin)
        ((find_top_profit_recipes p max_depth top_n mm).getD []) := by
  intro p d n mm
  unfold find_top_profit_recipes
  cases h : calculate_profit p [] with
  | none => simp
  | some pr =>
    dsimp only
    constructor
    · simp only [Option.getD_some, List.length_take]
      omega
    · simp only [Option.getD_some]
      exact sortDescBy_take_pairwise Recipe.profit_margin _ n

/-- A replacement lookup on a rule list whose mixer components all differ
from the probed mixer name finds nothing, whatever the effect. -/
theorem replLookup_none_of_mixer_absent :
    ∀ (rules : List ((String × String) × String)) (e m : String),
      (∀ r ∈ rules, r.1.2 ≠ m) → replLookup rules e m = none := by
  intro rules
  induction rules with
  | nil => intro e m _; rfl
  | cons r0 tl ih =>
    intro e m h
    obtain ⟨⟨e0, m0⟩, tgt⟩ := r0
    have hm : m0 ≠ m := h _ (List.mem_cons_self _ _)
    simp only [replLookup]
    rw [if_neg (fun hc => hm hc.2)]
    exact ih e m (fun r hr => h r (List.mem_cons_of_mem _ hr))

/-- C10: the rule table's spellings "Flu Medicine", "Mega Bean" and
"Horse Semen" differ from the catalog keys "Flu medicine", "Mega bean" and
"Horse semen", so those rules can never fire: no replacement lookup with
the catalog spellings succeeds for any effect, and applying the catalog's
"Flu medicine" to "Sour Diesel" appends its default Sedating instead of
performing (Refreshing, Flu Medicine) → Long Faced. -/
theorem misspelled_replacement_rules_never_fire :
    get_effects_from_mixers "Sour Diesel" ["Flu medicine"] = ["Refreshing", "Sedating"] ∧
    replLookup EFFECT_REPLACEMENTS "Refreshing" "Flu Medicine" = some "Long Faced" ∧
    replLookup EFFECT_REPLACEMENTS "Paranoia" "Mega Bean" = some "Jennerising" ∧
    replLookup EFFECT_REPLACEMENTS "Refreshing" "Horse Semen" = some "Gingeritis" ∧
    (tblLookup MIXERS "Flu medicine").isSome = true ∧
    (tblLookup MIXERS "Mega bean").isSome = true ∧
    (tblLookup MIXERS "Horse semen").isSome = true ∧
    (∀ e, replLookup EFFECT_REPLACEMENTS e "Flu medicine" = none) ∧
    (∀ e, replLookup EFFECT_REPLACEMENTS e "Mega bean" = none) ∧
    (∀ e, replLookup EFFECT_REPLACEMENTS e "Horse semen" = none) := by
  refine ⟨by decide, by decide, by decide, by decide, by decide, by decide, by decide,
    ?_, ?_, ?_⟩ <;>
    exact fun e => replLookup_none_of_mixer_absent EFFECT_REPLACEMENTS e _ (by decide)
